import Mathlib

set_option maxHeartbeats 1000000
set_option maxRecDepth 100000
set_option linter.unusedVariables false

/-! Shallow embedding of the certificate / CSR / PKCS#7 generation subsystem of
the repository (package certificates in src/internals/files/fileRename.go,
lines 340-671), together with the Go standard-library behaviour the code relies
on (encoding/asn1 marshalling, encoding/pem, encoding/base64, crypto/rand.Int,
time.Time.AddDate).  Machine integers are modelled as Nat/Int; byte strings as
List Nat with every byte < 256. -/

/-! ## DER primitives (encoding/asn1) -/

/-- Big-endian digits of `n` in base `base` (base ≥ 2), written with an explicit
fuel argument so the definition is structurally recursive; fuel = n always
suffices because the value shrinks by a factor of the base each step. -/
def natDigitsBEGo (base : Nat) : Nat → Nat → List Nat
  | 0, n => [n % base]
  | fuel + 1, n => if n < base then [n] else natDigitsBEGo base fuel (n / base) ++ [n % base]

/-- Big-endian digits of `n` in base `base`; `natDigitsBE b 0 = [0]`. -/
def natDigitsBE (base n : Nat) : List Nat := natDigitsBEGo base n n

/-- Number of bits of `n` (math/big `Int.BitLen` for nonnegative values). -/
def bitLen (n : Nat) : Nat := if n = 0 then 0 else (natDigitsBE 2 n).length

/-- DER definite-length encoding (length part of encoding/asn1
`appendTagAndLength`): short form below 128, else `0x80+k` followed by the
k-byte big-endian length. -/
def derLen (n : Nat) : List Nat :=
  if n < 128 then [n]
  else
    let ds := natDigitsBE 256 n
    (128 + ds.length) :: ds

/-- DER header+contents for a universal constructed SEQUENCE (tag byte 0x30). -/
def derSEQ (body : List Nat) : List Nat := 48 :: derLen body.length ++ body

/-- DER header+contents for a universal constructed SET (tag byte 0x31); used
only to state the shape the specification claims for the envelope. -/
def derSET (body : List Nat) : List Nat := 49 :: derLen body.length ++ body

/-- DER header+contents for a context-specific constructed tag 0 (byte 0xA0). -/
def derCtx0 (body : List Nat) : List Nat := 160 :: derLen body.length ++ body

/-- Base-128 encoding with continuation bits, as used by encoding/asn1 for
OBJECT IDENTIFIER arcs: every 7-bit group except the last has bit 7 set. -/
def base128Enc (n : Nat) : List Nat :=
  let ds := natDigitsBE 128 n
  ds.dropLast.map (fun d => d + 128) ++ [ds.getLastD 0]

/-- encoding/asn1 marshalling of an OBJECT IDENTIFIER (tag 0x06): the first two
arcs are packed as 40*a+b, every arc is base-128 encoded. -/
def derOID (arcs : List Nat) : List Nat :=
  match arcs with
  | a :: b :: rest =>
    let body := base128Enc (40 * a + b) ++ (rest.map base128Enc).flatten
    6 :: derLen body.length ++ body
  | _ => []

/-- encoding/asn1 marshalling of a nonnegative INTEGER (tag 0x02): minimal
big-endian base-256 digits, with a leading 0x00 when the top bit is set. -/
def derIntNat (n : Nat) : List Nat :=
  let ds := natDigitsBE 256 n
  let ds := if 128 ≤ ds.headD 0 then 0 :: ds else ds
  2 :: derLen ds.length ++ ds

/-! ## encoding/asn1 struct marshalling, as used by signCSRToPKCS7 -/

/-- encoding/asn1.RawValue (Class, Tag, IsCompound, Bytes, FullBytes). -/
structure RawValue where
  Class : Nat
  Tag : Nat
  IsCompound : Bool
  Bytes : List Nat
  FullBytes : List Nat
deriving DecidableEq, Repr

/-- The zero RawValue (Go zero value of the struct). -/
def RawValue.zero : RawValue := ⟨0, 0, false, [], []⟩

/-- encoding/asn1 makeField on a RawValue: when FullBytes is nonempty it is
emitted verbatim — Class/Tag/IsCompound and any struct-tag parameters are
ignored; otherwise a header built from Class/Tag/IsCompound is prepended to
Bytes. -/
def marshalRawValue (rv : RawValue) : List Nat :=
  if rv.FullBytes ≠ [] then rv.FullBytes
  else (rv.Class * 64 + (if rv.IsCompound then 32 else 0) + rv.Tag)
    :: derLen rv.Bytes.length ++ rv.Bytes

/-- An `asn1:"optional"` RawValue field with no default value: encoding/asn1
omits the field when it equals the zero value of its type. -/
def optRawValue (rv : RawValue) : List Nat :=
  if rv = RawValue.zero then [] else marshalRawValue rv

/-- encoding/asn1 marshalling of a slice type: a SEQUENCE of the marshalled
elements (a plain Go slice type is given the SEQUENCE tag, not SET). -/
def marshalSeqOf (elems : List (List Nat)) : List Nat := derSEQ elems.flatten

/-- The `contentInfo` struct declared inside signCSRToPKCS7 (lines 558-561).
`Content` carries `asn1:"explicit,optional,tag:0"`: being optional with no
default it is omitted when it is the zero RawValue, and being a RawValue the
explicit/tag parameters are ignored by encoding/asn1. -/
structure ContentInfoGo where
  ContentType : List Nat
  Content : RawValue
deriving DecidableEq, Repr

/-- encoding/asn1 marshalling of the contentInfo struct. -/
def marshalContentInfo (ci : ContentInfoGo) : List Nat :=
  derSEQ (derOID ci.ContentType ++ optRawValue ci.Content)

/-- The `signedData` struct declared inside signCSRToPKCS7 (lines 564-571);
`Certificates` carries `asn1:"optional,tag:0"` and `CRLs` carries
`asn1:"optional,tag:1"`. -/
structure SignedDataGo where
  Version : Nat
  DigestAlgorithms : RawValue
  ContentInfo : ContentInfoGo
  Certificates : RawValue
  CRLs : RawValue
  SignerInfos : RawValue
deriving DecidableEq, Repr

/-- encoding/asn1 marshalling of the signedData struct: a SEQUENCE of its
fields in declaration order, optional fields omitted when zero. -/
def marshalSignedData (sd : SignedDataGo) : List Nat :=
  derSEQ (derIntNat sd.Version ++ marshalRawValue sd.DigestAlgorithms ++
    marshalContentInfo sd.ContentInfo ++ optRawValue sd.Certificates ++
    optRawValue sd.CRLs ++ marshalRawValue sd.SignerInfos)

/-- OID 1.2.840.113549.1.7.2 (signed-data), line 574. -/
def oidSignedData : List Nat := [1, 2, 840, 113549, 1, 7, 2]

/-- OID 1.2.840.113549.1.7.1 (data), line 575. -/
def oidData : List Nat := [1, 2, 840, 113549, 1, 7, 1]

/-- Lines 556-623 of signCSRToPKCS7: hand-assembly of the PKCS#7 ContentInfo
from the DER certificate bytes.  `emptySet` is `asn1.Marshal([]interface` `{}{})`,
which is a zero-length SEQUENCE; `certSet` is `asn1.Marshal([]asn1.RawValue{...})`
with the certificate bytes as FullBytes. -/
def buildPKCS7 (certBytes : List Nat) : List Nat :=
  let emptySet := marshalSeqOf []
  let contentInfoData : ContentInfoGo := { ContentType := oidData, Content := RawValue.zero }
  let certSet := marshalSeqOf [marshalRawValue { RawValue.zero with FullBytes := certBytes }]
  let sd : SignedDataGo :=
    { Version := 1
      DigestAlgorithms := { RawValue.zero with FullBytes := emptySet }
      ContentInfo := contentInfoData
      Certificates := { Class := 2, Tag := 0, IsCompound := true, Bytes := [], FullBytes := certSet }
      CRLs := RawValue.zero
      SignerInfos := { RawValue.zero with FullBytes := emptySet } }
  let signedDataBytes := marshalSignedData sd
  let ci : ContentInfoGo :=
    { ContentType := oidSignedData
      Content := { Class := 2, Tag := 0, IsCompound := true, Bytes := signedDataBytes, FullBytes := [] } }
  marshalContentInfo ci

/-- The byte layout buildPKCS7 actually produces, written with independent DER
combinators: the certificates field is a universal SEQUENCE (0x30) wrapping the
certificate bytes, and the digest-algorithm and signer-info fields are
zero-length SEQUENCEs (0x30 0x00). -/
def actualEnvelope (certBytes : List Nat) : List Nat :=
  derSEQ (derOID oidSignedData ++
    derCtx0 (derSEQ (derIntNat 1 ++ derSEQ [] ++ derSEQ (derOID oidData) ++
      derSEQ (marshalRawValue { RawValue.zero with FullBytes := certBytes }) ++ derSEQ [])))

/-- The envelope as claim C1 (and the specification) describes it: zero-length
SETs (0x31 0x00) for digest algorithms and signer infos, and a certificates
field carried under a context-specific constructed tag 0 (0xA0). -/
def claimedEnvelope (certBytes : List Nat) : List Nat :=
  derSEQ (derOID oidSignedData ++
    derCtx0 (derSEQ (derIntNat 1 ++ derSET [] ++ derSEQ (derOID oidData) ++
      derCtx0 certBytes ++ derSET [])))

/-! ## base64 (encoding/base64 StdEncoding) and PEM encoding -/

/-- The standard base64 alphabet. -/
def base64Chars : List Char :=
  "ABCDEFGHIJKLMNOPQRSTUVWXYZabcdefghijklmnopqrstuvwxyz0123456789+/".toList

/-- Character for a 6-bit group (always < 64 at call sites). -/
def b64c (n : Nat) : Char := base64Chars.getD n '?'

/-- encoding/base64 StdEncoding.EncodeToString on a byte list. -/
def base64Encode : List Nat → String
  | [] => ""
  | [a] => String.mk [b64c (a / 4), b64c (a % 4 * 16), '=', '=']
  | [a, b] => String.mk [b64c (a / 4), b64c (a % 4 * 16 + b / 16), b64c (b % 16 * 4), '=']
  | a :: b :: c :: rest =>
    String.mk [b64c (a / 4), b64c (a % 4 * 16 + b / 16), b64c (b % 16 * 4 + c / 64), b64c (c % 64)]
      ++ base64Encode rest

/-- Split a character list into newline-terminated lines of at most 64
characters (fuel = list length). -/
def wrap64Go : Nat → List Char → String
  | 0, _ => ""
  | _, [] => ""
  | fuel + 1, cs => String.mk (cs.take 64) ++ "\n" ++ wrap64Go fuel (cs.drop 64)

/-- encoding/pem EncodeToMemory for a block with no headers: BEGIN line,
base64 body in 64-character lines, END line. -/
def pemEncodeToMemory (label : String) (bytes : List Nat) : String :=
  "-----BEGIN " ++ label ++ "-----\n" ++
    wrap64Go (base64Encode bytes).length (base64Encode bytes).toList ++
    "-----END " ++ label ++ "-----\n"

/-! ## Go time (time.Date / time.Time.Date / time.Time.AddDate)

A Go time is modelled at the granularity the code observes: the absolute day
number (days since Go's absolute epoch, January 1 of year -292277022398) and
the second of the day; time.Now() always yields a value whose civil
decomposition recomposes to itself.  The civil conversions below transcribe
Go's time.daysSinceEpoch / time.absDate / time.norm. -/

/-- time.absoluteZeroYear. -/
def absoluteZeroYear : Int := -292277022399

/-- time.daysBefore: cumulative day counts before each month, non-leap. -/
def daysBeforeMonth : List Nat := [0, 31, 59, 90, 120, 151, 181, 212, 243, 273, 304, 334, 365]

/-- time.isLeap. -/
def isLeap (year : Int) : Bool := year % 4 == 0 && (year % 100 != 0 || year % 400 == 0)

/-- time.norm: normalize (hi, lo) so that 0 ≤ lo < base (divisions occur on
nonnegative operands only, so the rounding convention does not matter). -/
def goNorm (hi lo base : Int) : Int × Int :=
  let p := if lo < 0 then
    let n := (-lo - 1) / base + 1
    (hi - n, lo + n * base)
  else (hi, lo)
  if p.2 ≥ base then
    let n := p.2 / base
    (p.1 + n, p.2 - n * base)
  else p

/-- time.daysSinceEpoch: days from the absolute epoch to the start of the
given year (Go computes this in uint64; valid for every representable year). -/
def daysSinceEpoch (year : Int) : Nat :=
  let y := (year - absoluteZeroYear).toNat
  let n400 := y / 400
  let d0 := 146097 * n400
  let y1 := y - 400 * n400
  let n100 := y1 / 100
  let d1 := d0 + 36524 * n100
  let y2 := y1 - 100 * n100
  let n4 := y2 / 4
  let d2 := d1 + 1461 * n4
  let y3 := y2 - 4 * n4
  d2 + 365 * y3

/-- The day-number computation of time.Date(year, month, day, ...): normalize
the month into the year, then add days before the year, days before the month
(with the leap-day correction), and day-1.  The clock components are
normalized separately by Go and do not affect this claim's granularity. -/
def goDateAbsDay (year month day : Int) : Int :=
  match goNorm year (month - 1) 12 with
  | (y, m) =>
    (daysSinceEpoch y : Int) + (daysBeforeMonth.getD m.toNat 0 : Int) +
      (if isLeap y && m + 1 ≥ 3 then 1 else 0) + (day - 1)

/-- time.absDate(abs, full=true): civil (year, month, day) of an absolute day
number. -/
def absDateFromDays (dIn : Nat) : Int × Int × Int :=
  let n400 := dIn / 146097
  let y0 := 400 * n400
  let d1 := dIn - 146097 * n400
  let n100 := d1 / 36524 - d1 / 36524 / 4
  let y1 := y0 + 100 * n100
  let d2 := d1 - 36524 * n100
  let n4 := d2 / 1461
  let y2 := y1 + 4 * n4
  let d3 := d2 - 1461 * n4
  let n1 := d3 / 365 - d3 / 365 / 4
  let y3 := y2 + n1
  let d4 := d3 - 365 * n1
  let year : Int := (y3 : Int) + absoluteZeroYear
  if isLeap year && d4 > 59 then
    monthDayOfYday year (d4 - 1)
  else if isLeap year && d4 == 59 then
    (year, 2, 29)
  else
    monthDayOfYday year d4
where
  /-- The month/day extraction at the end of time.absDate (0-based yday, after
  the leap-day adjustment). -/
  monthDayOfYday (year : Int) (d : Nat) : Int × Int × Int :=
    let month0 := d / 31
    let endB := daysBeforeMonth.getD (month0 + 1) 0
    let p := if d ≥ endB then (month0 + 1, endB) else (month0, daysBeforeMonth.getD month0 0)
    (year, (p.1 : Int) + 1, (d : Int) - (p.2 : Int) + 1)

/-- A Go time at the granularity this code observes: absolute day number and
second of day (clock). -/
structure GoTime where
  absDay : Int
  sod : Int
deriving DecidableEq, Repr

/-- time.Time.Date(): civil decomposition. -/
def dateOf (t : GoTime) : Int × Int × Int := absDateFromDays t.absDay.toNat

/-- Recompose a civil triple into an absolute day number (time.Date). -/
def goDateTriple (p : Int × Int × Int) : Int := goDateAbsDay p.1 p.2.1 p.2.2

/-- time.Time.AddDate(years, months, days): decompose to civil date, add the
offsets componentwise, recompose with the same clock. -/
def AddDate (t : GoTime) (years months days : Int) : GoTime :=
  match dateOf t with
  | (y, m, d) => { absDay := goDateAbsDay (y + years) (m + months) (d + days), sod := t.sod }

/-- Spec-side: "t plus exactly n days". -/
def plusDays (t : GoTime) (n : Int) : GoTime := { absDay := t.absDay + n, sod := t.sod }

/-! ## crypto/rand.Int (serial-number generation, lines 510-514)

`rand.Int(rand.Reader, max)` computes bitLen(max-1), reads k = ceil(bitLen/8)
bytes, masks the top byte down to bitLen mod 8 bits (8 when that is 0), and
retries until the big-endian value is below max.  The random source is
modelled as a byte stream. -/

/-- Big-endian byte-list to natural number (big.Int SetBytes). -/
def bytesToNatBE (bs : List Nat) : Nat := bs.foldl (fun acc b => acc * 256 + b) 0

/-- k consecutive bytes of the stream starting at pos (io.ReadFull). -/
def readBytes (stream : Nat → Nat) (pos : Nat) : Nat → List Nat
  | 0 => []
  | k + 1 => stream pos :: readBytes stream (pos + 1) k

/-- The retry loop of crypto/rand.Int.  Masking the top byte with the low `b`
bits is `% 2^b`.  `fuel` bounds the number of iterations (Go loops forever;
for max = 2^128 the first iteration always succeeds). -/
def goRandIntLoop (stream : Nat → Nat) (maxv k b : Nat) : Nat → Nat → Option Nat
  | _, 0 => none
  | pos, fuel + 1 =>
    let bytes := match readBytes stream pos k with
      | [] => []
      | b0 :: rest => b0 % 2 ^ b :: rest
    let n := bytesToNatBE bytes
    if n < maxv then some n else goRandIntLoop stream maxv k b (pos + k) fuel

/-- crypto/rand.Int(rand.Reader, maxv) for maxv > 0: read
k = ceil(bitLen(maxv-1)/8) bytes per attempt, mask the top byte to
b = bitLen mod 8 bits (8 when that is 0). -/
def goRandInt (stream : Nat → Nat) (maxv fuel : Nat) : Option Nat :=
  if bitLen (maxv - 1) = 0 then some 0
  else goRandIntLoop stream maxv ((bitLen (maxv - 1) + 7) / 8)
    (if bitLen (maxv - 1) % 8 = 0 then 8 else bitLen (maxv - 1) % 8) 0 fuel

/-- Spec-side inverse of bytesToNatBE: the k-byte big-endian representation. -/
def natToBytesBE : Nat → Nat → List Nat
  | 0, _ => []
  | k + 1, v => natToBytesBE k (v / 256) ++ [v % 256]

/-! ## Data model (pkix.Name, x509 request/certificate, url.URL)

Private and public keys are opaque handles to this code; they are modelled as
natural numbers. -/

/-- pkix.AttributeTypeAndValue (used for the domain-component attribute). -/
structure AttributeTypeAndValue where
  AttrType : List Nat
  Value : String
deriving DecidableEq, Repr

/-- The pkix.Name fields this code sets or copies. -/
structure PkixName where
  CommonName : String
  Country : List String
  Province : List String
  Locality : List String
  Organization : List String
  OrganizationalUnit : List String
  ExtraNames : List AttributeTypeAndValue
deriving DecidableEq, Repr

/-- x509.SignatureAlgorithm values relevant to the command surface. -/
inductive SignatureAlgorithm where
  | ECDSAWithSHA256
  | ECDSAWithSHA384
  | SHA256WithRSA
deriving DecidableEq, Repr

/-- net/url.URL, reduced to the fields this code consults (Scheme) plus an
opaque remainder standing for the other components. -/
structure URL where
  Scheme : String
  Rest : String
deriving DecidableEq, Repr

/-- A parsed x509.CertificateRequest, reduced to the fields signCSRToPKCS7
reads.  x509.ParseCertificateRequest checks ASN.1 structure only; it does not
verify the embedded signature, and the parsed request carries no link to any
particular private key. -/
structure CertificateRequest where
  Subject : PkixName
  DNSNames : List String
  PublicKey : Nat
deriving DecidableEq, Repr

/-- The x509.CertificateRequest template built by createCSR (lines 462-467). -/
structure CSRTemplate where
  Subject : PkixName
  SignatureAlgorithm : SignatureAlgorithm
  DNSNames : List String
deriving DecidableEq, Repr

/-- x509.KeyUsageDigitalSignature. -/
def KeyUsageDigitalSignature : Nat := 1

/-- x509.KeyUsageContentCommitment. -/
def KeyUsageContentCommitment : Nat := 2

/-- The x509.Certificate template built by signCSRToPKCS7 (lines 520-536). -/
structure CertTemplate where
  SerialNumber : Nat
  Subject : PkixName
  NotBefore : GoTime
  NotAfter : GoTime
  KeyUsage : Nat
  BasicConstraintsValid : Bool
  DNSNames : List String
  URIs : List URL
deriving DecidableEq, Repr

/-- The certificate produced by x509.CreateCertificate, at the field level
documented for that function: subject, serial, validity, key usage, SANs and
URIs come from the template; the issuer is the parent's subject; the embedded
public key is the `pub` argument; the signature is made with `priv`. -/
structure IssuedCert where
  SerialNumber : Nat
  Subject : PkixName
  Issuer : PkixName
  NotBefore : GoTime
  NotAfter : GoTime
  KeyUsage : Nat
  BasicConstraintsValid : Bool
  DNSNames : List String
  URIs : List URL
  PublicKey : Nat
  SignedWith : Nat
deriving DecidableEq, Repr

/-- Field-level semantics of x509.CreateCertificate(rand, template, parent,
pub, priv).  The fallible DER serialization is a separate environment call. -/
def x509CreateCertificate (template parent : CertTemplate) (pub priv : Nat) : IssuedCert :=
  { SerialNumber := template.SerialNumber
    Subject := template.Subject
    Issuer := parent.Subject
    NotBefore := template.NotBefore
    NotAfter := template.NotAfter
    KeyUsage := template.KeyUsage
    BasicConstraintsValid := template.BasicConstraintsValid
    DNSNames := template.DNSNames
    URIs := template.URIs
    PublicKey := pub
    SignedWith := priv }

/-- pem.Block (Type / Bytes; headers are unused by this code). -/
structure PemBlock where
  BlockType : String
  Bytes : List Nat
deriving DecidableEq, Repr

/-- Go errors are modelled by their message strings; fmt.Errorf("...: %w", e)
is message concatenation. -/
abbrev GoErr := String

/-- The standard-library calls of the pipeline that depend on randomness, key
material or parsing of real DER, abstracted as an environment.  The ASN.1
assembly itself (buildPKCS7) is modelled concretely above. -/
structure Env where
  pemDecode : String → Option PemBlock
  parseCertificateRequest : List Nat → Except GoErr CertificateRequest
  randInt : Except GoErr Nat
  now : GoTime
  urlParse : String → Option URL
  createCertificateDER : IssuedCert → Except GoErr (List Nat)
  parseCertificate : List Nat → Except GoErr Unit
  generateKey : Except GoErr Nat
  marshalPKCS8PrivateKey : Nat → Except GoErr (List Nat)
  createCertificateRequest : CSRTemplate → Nat → Except GoErr (List Nat)

/-! ## createCSR (lines 409-491) -/

/-- Domain Component OID 0.9.2342.19200300.100.1.25 (line 436). -/
def dcOID : List Nat := [0, 9, 2342, 19200300, 100, 1, 25]

/-- Lines 445-460: start from commonName, append altNames, drop duplicates
with a seen-set while appending first occurrences in order.  The Go
`map[string]bool` seen-set is modelled as the list of seen names. -/
def buildDNSNames (commonName : String) (altNames : List String) : List String :=
  let dnsNames := commonName :: altNames
  (dnsNames.foldl
    (fun (acc : List String × List String) name =>
      if name ∈ acc.1 then acc else (name :: acc.1, acc.2 ++ [name]))
    ([], [])).2

/-- Lines 420-467 of createCSR: build the subject and the CSR template with
the signature algorithm fixed to ECDSA-with-SHA256. -/
def createCSRTemplate (commonName : String) (domainComponent : Option String)
    (altNames : List String) (country state locality organization : String)
    (organizationalUnit : Option String) : CSRTemplate :=
  let subject : PkixName :=
    { CommonName := commonName
      Country := [country]
      Province := [state]
      Locality := [locality]
      Organization := [organization]
      OrganizationalUnit := []
      ExtraNames := [] }
  let subject := match organizationalUnit with
    | some ou => { subject with OrganizationalUnit := [ou] }
    | none => subject
  let subject := match domainComponent with
    | some dc => { subject with ExtraNames := [{ AttrType := dcOID, Value := dc }] }
    | none => subject
  { Subject := subject
    SignatureAlgorithm := SignatureAlgorithm.ECDSAWithSHA256
    DNSNames := buildDNSNames commonName altNames }

/-- KeyPair (lines 360-363). -/
structure KeyPair where
  PrivateKey : Nat
  PrivateKeyPEM : String
deriving DecidableEq, Repr

/-- CSRResult (lines 366-369). -/
structure CSRResult where
  CSR : CertificateRequest
  CSRPEM : String
deriving DecidableEq, Repr

/-- generateECDSAKeyPair (lines 383-406). -/
def generateECDSAKeyPair (env : Env) : Except GoErr KeyPair :=
  match env.generateKey with
  | .error e => .error ("failed to generate key: " ++ e)
  | .ok privateKey =>
    match env.marshalPKCS8PrivateKey privateKey with
    | .error e => .error ("failed to marshal private key: " ++ e)
    | .ok privateKeyBytes =>
      .ok { PrivateKey := privateKey
            PrivateKeyPEM := pemEncodeToMemory "PRIVATE KEY" privateKeyBytes }

/-- createCSR (lines 409-491): build the template, create the request with the
private key, re-parse, PEM-encode. -/
def createCSR (env : Env) (keyPair : KeyPair) (commonName : String)
    (domainComponent : Option String) (altNames : List String)
    (country state locality organization : String)
    (organizationalUnit : Option String) : Except GoErr CSRResult :=
  let template := createCSRTemplate commonName domainComponent altNames
    country state locality organization organizationalUnit
  match env.createCertificateRequest template keyPair.PrivateKey with
  | .error e => .error ("failed to create CSR: " ++ e)
  | .ok csrBytes =>
    match env.parseCertificateRequest csrBytes with
    | .error e => .error ("failed to parse CSR: " ++ e)
    | .ok csr => .ok { CSR := csr, CSRPEM := pemEncodeToMemory "CERTIFICATE REQUEST" csrBytes }

/-! ## signCSRToPKCS7 (lines 494-629) -/

/-- Lines 531-536: collect the DNS names that url.Parse accepts with a
non-empty scheme, appending in order. -/
def uriFold (urlParse : String → Option URL) (names : List String) : List URL :=
  names.foldl
    (fun acc name =>
      match urlParse name with
      | some u => if u.Scheme ≠ "" then acc ++ [u] else acc
      | none => acc)
    []

/-- Lines 516-536: the certificate template (validity window, subject and DNS
names copied from the CSR, key usage, basic constraints, URIs). -/
def mkTemplate (csr : CertificateRequest) (serialNumber : Nat) (notBefore : GoTime)
    (validityDays : Int) (urlParse : String → Option URL) : CertTemplate :=
  let notAfter := AddDate notBefore 0 0 validityDays
  { SerialNumber := serialNumber
    Subject := csr.Subject
    NotBefore := notBefore
    NotAfter := notAfter
    KeyUsage := KeyUsageDigitalSignature ||| KeyUsageContentCommitment
    BasicConstraintsValid := true
    DNSNames := csr.DNSNames
    URIs := uriFold urlParse csr.DNSNames }

/-- The certificate issued on line 539: parent is the template itself and the
signature is made with the supplied private key. -/
def issuedOf (env : Env) (csr : CertificateRequest) (serialNumber : Nat)
    (signingPrivateKey : Nat) (validityDays : Int) : IssuedCert :=
  let template := mkTemplate csr serialNumber env.now validityDays env.urlParse
  x509CreateCertificate template template csr.PublicKey signingPrivateKey

/-- signCSRToPKCS7 (lines 494-629), mirroring the Go control flow: each error
site returns the empty string together with the error. -/
def signCSRToPKCS7 (env : Env) (csrPEM : String) (signingPrivateKey : Nat)
    (validityDays : Int) : String × Option GoErr :=
  match env.pemDecode csrPEM with
  | none => ("", some "failed to decode CSR PEM")
  | some block =>
    match env.parseCertificateRequest block.Bytes with
    | .error e => ("", some ("failed to parse CSR: " ++ e))
    | .ok csr =>
      match env.randInt with
      | .error e => ("", some ("failed to generate serial number: " ++ e))
      | .ok serialNumber =>
        match env.createCertificateDER (issuedOf env csr serialNumber signingPrivateKey validityDays) with
        | .error e => ("", some ("failed to create certificate: " ++ e))
        | .ok certBytes =>
          match env.parseCertificate certBytes with
          | .error e => ("", some ("failed to parse certificate: " ++ e))
          | .ok _ => (base64Encode (buildPKCS7 certBytes), none)

/-- The intermediate values of a successful signCSRToPKCS7 run. -/
structure SignTrace where
  csr : CertificateRequest
  serialNumber : Nat
  template : CertTemplate
  issued : IssuedCert
  certBytes : List Nat
  output : String
deriving DecidableEq, Repr

/-- signCSRToPKCS7 enriched with its intermediate values (same control flow,
same error messages). -/
def signTrace (env : Env) (csrPEM : String) (signingPrivateKey : Nat)
    (validityDays : Int) : Except GoErr SignTrace :=
  match env.pemDecode csrPEM with
  | none => .error "failed to decode CSR PEM"
  | some block =>
    match env.parseCertificateRequest block.Bytes with
    | .error e => .error ("failed to parse CSR: " ++ e)
    | .ok csr =>
      match env.randInt with
      | .error e => .error ("failed to generate serial number: " ++ e)
      | .ok serialNumber =>
        match env.createCertificateDER (issuedOf env csr serialNumber signingPrivateKey validityDays) with
        | .error e => .error ("failed to create certificate: " ++ e)
        | .ok certBytes =>
          match env.parseCertificate certBytes with
          | .error e => .error ("failed to parse certificate: " ++ e)
          | .ok _ =>
            .ok { csr := csr
                  serialNumber := serialNumber
                  template := mkTemplate csr serialNumber env.now validityDays env.urlParse
                  issued := issuedOf env csr serialNumber signingPrivateKey validityDays
                  certBytes := certBytes
                  output := base64Encode (buildPKCS7 certBytes) }

/-! ## CertificateGeneration (lines 631-671)

The cobra Run function receives the command arguments (the `<hash_algorithm>`
positional argument) and never reads them.  Its observable behaviour is the
sequence of lines printed to standard output. -/

/-- CertificateGeneration(cmd, args): the printed output of one run. -/
def CertificateGeneration (env : Env) (args : List String) : List String :=
  match generateECDSAKeyPair env with
  | .error e => ["Error generating key pair: " ++ e]
  | .ok keyPair =>
    "Generated ECDSA key pair with P-256 curve" ::
    ("Private key PEM:\n" ++ keyPair.PrivateKeyPEM) ::
    match createCSR env keyPair "USAMZS00000000000000000000001372070201E" (some "CSO")
      ["https://www.powerflex.com"] "US" "California" "San Diego" "AMZ" none with
    | .error e => ["Error creating CSR: " ++ e]
    | .ok csrResult =>
      ("CSR PEM:\n" ++ csrResult.CSRPEM) ::
      match signCSRToPKCS7 env csrResult.CSRPEM keyPair.PrivateKey 365 with
      | (_, some e) => ["Error signing CSR: " ++ e]
      | (pkcs7Cert, none) => ["PKCS#7 Certificate (Base64):\n" ++ pkcs7Cert]

/-! ## Spec-side definitions -/

/-- First-seen-order deduplication: keep the first occurrence of every
element. -/
def firstSeenDedup : List String → List String
  | [] => []
  | x :: xs => x :: firstSeenDedup (xs.filter (fun y => y ≠ x))
termination_by l => l.length
decreasing_by
  exact Nat.lt_succ_of_le (List.length_filter_le _ _)

/-! ## Concrete fixtures used by witness theorems -/

/-- A concrete parsed CSR. -/
def csr0 : CertificateRequest :=
  { Subject :=
      { CommonName := "example.com"
        Country := ["US"]
        Province := ["California"]
        Locality := ["San Diego"]
        Organization := ["AMZ"]
        OrganizationalUnit := []
        ExtraNames := [] }
    DNSNames := ["example.com", "https://www.powerflex.com"]
    PublicKey := 42 }

/-- A concrete time (2026-10-11, 01:00:00). -/
def now0 : GoTime := { absDay := goDateAbsDay 2026 10 11, sod := 3600 }

/-- A concrete PEM block. -/
def blk0 : PemBlock := { BlockType := "CERTIFICATE REQUEST", Bytes := [1, 2, 3] }

/-- An environment in which every library call succeeds. -/
def envOk : Env :=
  { pemDecode := fun _ => some blk0
    parseCertificateRequest := fun _ => .ok csr0
    randInt := .ok 5
    now := now0
    urlParse := fun s =>
      if s = "https://www.powerflex.com" then some { Scheme := "https", Rest := "www.powerflex.com" }
      else none
    createCertificateDER := fun _ => .ok [48, 3, 2, 1, 0]
    parseCertificate := fun _ => .ok ()
    generateKey := .ok 7
    marshalPKCS8PrivateKey := fun _ => .ok [48, 1, 0]
    createCertificateRequest := fun _ _ => .ok [48, 9] }

/-- envOk with a failing PEM decode (as on any input without a PEM block). -/
def envPemFail : Env := { envOk with pemDecode := fun _ => none }

/-- The certificate template computed in the envOk run with serial 5,
validity 7 days. -/
def tmpl0 : CertTemplate := mkTemplate csr0 5 now0 7 envOk.urlParse

/-- The trace of the envOk run with key 9 and validity 7 days. -/
def tr0 : SignTrace :=
  { csr := csr0
    serialNumber := 5
    template := tmpl0
    issued := issuedOf envOk csr0 5 9 7
    certBytes := [48, 3, 2, 1, 0]
    output := base64Encode (buildPKCS7 [48, 3, 2, 1, 0]) }

/-! ## Helper lemmas -/

theorem dedupFold_spec (l seen out : List String) :
    (l.foldl
      (fun (acc : List String × List String) name =>
        if name ∈ acc.1 then acc else (name :: acc.1, acc.2 ++ [name]))
      (seen, out)).2
    = out ++ firstSeenDedup (l.filter (fun y => y ∉ seen)) := by
  induction l generalizing seen out with
  | nil => simp [firstSeenDedup]
  | cons n l ih =>
    by_cases h : n ∈ seen
    · simpa [List.foldl_cons, h] using ih seen out
    · have step : (l.foldl
          (fun (acc : List String × List String) name =>
            if name ∈ acc.1 then acc else (name :: acc.1, acc.2 ++ [name]))
          (n :: seen, out ++ [n])).2
          = (out ++ [n]) ++ firstSeenDedup (l.filter (fun y => y ∉ n :: seen)) := ih _ _
      have hfilter : l.filter (fun y => y ∉ n :: seen)
          = (l.filter (fun y => y ∉ seen)).filter (fun y => y ≠ n) := by
        rw [List.filter_filter]
        apply List.filter_congr
        intro a _
        by_cases h1 : a = n <;> by_cases h2 : a ∈ seen <;> simp [h1, h2]
      simp only [List.foldl_cons, if_neg h, step, hfilter]
      rw [List.filter_cons_of_pos (by simpa using h)]
      rw [firstSeenDedup]
      simp

theorem mem_firstSeenDedup : ∀ (l : List String) (x : String), x ∈ firstSeenDedup l → x ∈ l := by
  intro l
  induction l using firstSeenDedup.induct with
  | case1 => simp [firstSeenDedup]
  | case2 y ys ih =>
    intro x hx
    rw [firstSeenDedup] at hx
    rcases List.mem_cons.mp hx with h | h
    · simp [h]
    · have := ih x h
      have := List.mem_of_mem_filter this
      simp [this]

theorem nodup_firstSeenDedup : ∀ l : List String, (firstSeenDedup l).Nodup := by
  intro l
  induction l using firstSeenDedup.induct with
  | case1 => simp [firstSeenDedup]
  | case2 y ys ih =>
    rw [firstSeenDedup]
    refine List.nodup_cons.mpr ⟨?_, ih⟩
    intro hy
    have := mem_firstSeenDedup _ _ hy
    simp [List.mem_filter] at this

theorem buildDNSNames_eq (cn : String) (alts : List String) :
    buildDNSNames cn alts = firstSeenDedup (cn :: alts) := by
  unfold buildDNSNames
  rw [dedupFold_spec]
  simp

theorem uriFold_general (up : String → Option URL) (l : List String) (acc : List URL) :
    l.foldl
      (fun acc name =>
        match up name with
        | some u => if u.Scheme ≠ "" then acc ++ [u] else acc
        | none => acc)
      acc
    = acc ++ l.filterMap (fun name =>
        match up name with
        | some u => if u.Scheme ≠ "" then some u else none
        | none => none) := by
  induction l generalizing acc with
  | nil => simp
  | cons n l ih =>
    simp only [List.foldl_cons, List.filterMap_cons]
    rcases h : up n with _ | u
    · exact ih acc
    · dsimp only
      by_cases hs : u.Scheme = ""
      · rw [if_neg (fun hne => hne hs), if_neg (fun hne => hne hs)]
        exact ih acc
      · rw [if_pos hs, if_pos hs, ih (acc ++ [u]), List.append_assoc]
        rfl

theorem goDateAbsDay_add_days (y m d n : Int) :
    goDateAbsDay y m (d + n) = goDateAbsDay y m d + n := by
  unfold goDateAbsDay
  rcases hn : goNorm y (m - 1) 12 with ⟨y1, m1⟩
  simp only []
  ring

theorem addDate_days (t : GoTime) (vd : Int) (h : goDateTriple (dateOf t) = t.absDay) :
    AddDate t 0 0 vd = plusDays t vd := by
  unfold AddDate plusDays
  rcases hd : dateOf t with ⟨y, ⟨m, d⟩⟩
  unfold goDateTriple at h
  rw [hd] at h
  simp only [] at h ⊢
  rw [add_zero, add_zero, goDateAbsDay_add_days, h]

theorem bytesToNatBE_foldl (bs : List Nat) : ∀ a : Nat,
    bs.foldl (fun acc b => acc * 256 + b) a = a * 256 ^ bs.length + bytesToNatBE bs := by
  induction bs with
  | nil => intro a; simp [bytesToNatBE]
  | cons b bs ih =>
    intro a
    have hb : bytesToNatBE (b :: bs) = b * 256 ^ bs.length + bytesToNatBE bs := by
      unfold bytesToNatBE
      simpa using ih b
    simp only [List.foldl_cons, List.length_cons, hb, ih (a * 256 + b)]
    ring

theorem bytesToNatBE_lt (bs : List Nat) (h : ∀ x ∈ bs, x < 256) :
    bytesToNatBE bs < 256 ^ bs.length := by
  induction bs with
  | nil => simp [bytesToNatBE]
  | cons b bs ih =>
    have hb : bytesToNatBE (b :: bs) = b * 256 ^ bs.length + bytesToNatBE bs := by
      unfold bytesToNatBE
      simpa using bytesToNatBE_foldl bs b
    have h1 : bytesToNatBE bs < 256 ^ bs.length := ih (fun x hx => h x (List.mem_cons_of_mem b hx))
    have h2 : b + 1 ≤ 256 := h b (List.mem_cons_self b bs)
    calc bytesToNatBE (b :: bs) = b * 256 ^ bs.length + bytesToNatBE bs := hb
      _ < b * 256 ^ bs.length + 256 ^ bs.length := by omega
      _ = (b + 1) * 256 ^ bs.length := by ring
      _ ≤ 256 * 256 ^ bs.length := Nat.mul_le_mul_right _ h2
      _ = 256 ^ (b :: bs).length := by rw [List.length_cons]; ring

theorem bytesToNatBE_concat (xs : List Nat) (x : Nat) :
    bytesToNatBE (xs ++ [x]) = bytesToNatBE xs * 256 + x := by
  unfold bytesToNatBE
  rw [List.foldl_append]
  simp

theorem natToBytesBE_length (k : Nat) : ∀ v, (natToBytesBE k v).length = k := by
  induction k with
  | zero => intro v; rfl
  | succ k ih => intro v; simp [natToBytesBE, ih]

theorem natToBytesBE_lt (k : Nat) : ∀ v, ∀ x ∈ natToBytesBE k v, x < 256 := by
  induction k with
  | zero => intro v x hx; simp [natToBytesBE] at hx
  | succ k ih =>
    intro v x hx
    simp only [natToBytesBE, List.mem_append, List.mem_singleton] at hx
    rcases hx with hx | hx
    · exact ih _ x hx
    · subst hx; exact Nat.mod_lt _ (by norm_num)

theorem natToBytesBE_value (k : Nat) : ∀ v, bytesToNatBE (natToBytesBE k v) = v % 256 ^ k := by
  induction k with
  | zero => intro v; simp [natToBytesBE, bytesToNatBE, Nat.mod_one]
  | succ k ih =>
    intro v
    rw [natToBytesBE, bytesToNatBE_concat, ih]
    rw [Nat.pow_succ', Nat.mod_mul]
    ring

theorem bytesToNatBE_inj : ∀ (bs cs : List Nat), bs.length = cs.length →
    (∀ x ∈ bs, x < 256) → (∀ x ∈ cs, x < 256) →
    bytesToNatBE bs = bytesToNatBE cs → bs = cs := by
  intro bs
  induction bs with
  | nil =>
    intro cs hl _ _ _
    exact (List.length_eq_zero.mp hl.symm).symm ▸ rfl
  | cons b bs ih =>
    intro cs hl hb hc hv
    rcases cs with _ | ⟨c, cs⟩
    · simp at hl
    · have hlen : bs.length = cs.length := by simpa using hl
      have hvb : bytesToNatBE (b :: bs) = b * 256 ^ bs.length + bytesToNatBE bs := by
        unfold bytesToNatBE; simpa using bytesToNatBE_foldl bs b
      have hvc : bytesToNatBE (c :: cs) = c * 256 ^ cs.length + bytesToNatBE cs := by
        unfold bytesToNatBE; simpa using bytesToNatBE_foldl cs c
      have h1 : bytesToNatBE bs < 256 ^ bs.length :=
        bytesToNatBE_lt bs (fun x hx => hb x (List.mem_cons_of_mem b hx))
      have h2 : bytesToNatBE cs < 256 ^ cs.length :=
        bytesToNatBE_lt cs (fun x hx => hc x (List.mem_cons_of_mem c hx))
      rw [hvb, hvc, ← hlen] at hv
      have hp : 0 < 256 ^ bs.length := Nat.pos_pow_of_pos _ (by norm_num)
      have hdb : (b * 256 ^ bs.length + bytesToNatBE bs) / 256 ^ bs.length = b := by
        rw [Nat.mul_comm b _, Nat.mul_add_div hp, Nat.div_eq_of_lt h1]
        omega
      have hdc : (c * 256 ^ bs.length + bytesToNatBE cs) / 256 ^ bs.length = c := by
        rw [Nat.mul_comm c _, Nat.mul_add_div hp, Nat.div_eq_of_lt (hlen ▸ h2)]
        omega
      have hbc : b = c := by rw [← hdb, ← hdc, hv]
      have hrest : bytesToNatBE bs = bytesToNatBE cs := by
        subst hbc
        omega
      have := ih cs hlen (fun x hx => hb x (List.mem_cons_of_mem b hx))
        (fun x hx => hc x (List.mem_cons_of_mem c hx)) hrest
      rw [hbc, this]

theorem readBytes_length (stream : Nat → Nat) : ∀ (pos k : Nat),
    (readBytes stream pos k).length = k := by
  intro pos k
  induction k generalizing pos with
  | zero => rfl
  | succ k ih => simp [readBytes, ih]

theorem readBytes_lt (stream : Nat → Nat) (hb : ∀ i, stream i < 256) :
    ∀ (pos k : Nat), ∀ x ∈ readBytes stream pos k, x < 256 := by
  intro pos k
  induction k generalizing pos with
  | zero => intro x hx; simp [readBytes] at hx
  | succ k ih =>
    intro x hx
    rcases List.mem_cons.mp hx with h | h
    · subst h; exact hb pos
    · exact ih (pos + 1) x h

/-! ## Claim theorems -/

/-- C1: of the claimed envelope layout, the code matches the outer content-info
(signed-data OID, explicit tag-0 constructed content), version 1, the inner
"data" contentType and the wrapping of exactly the DER certificate bytes — but
the certificates field is emitted as a universal SEQUENCE (first byte 0x30),
not with context-specific constructed tag 0 (0xA0), and the empty
digest-algorithms and signer-infos collections are zero-length SEQUENCEs
(0x30 0x00), not SETs (0x31 0x00): RawValue.FullBytes overrides the
Class/Tag/IsCompound fields and the `tag:0` parameter, and marshalling an
empty interface slice yields a SEQUENCE.  The first conjunct characterizes the
full byte layout for every certificate; the second exhibits the divergence
from the claimed layout at a concrete certificate. -/
theorem c1_envelope_bytes :
    (∀ certBytes : List Nat, buildPKCS7 certBytes = actualEnvelope certBytes) ∧
    buildPKCS7 [48, 3, 2, 1, 0] ≠ claimedEnvelope [48, 3, 2, 1, 0] := by
  constructor
  · intro cb
    simp [buildPKCS7, actualEnvelope, marshalSignedData, marshalContentInfo,
      marshalSeqOf, optRawValue, marshalRawValue, RawValue.zero, derSEQ, derCtx0, derLen]
  · decide

/-- C2: the DNS-name list of the CSR template built by createCSR is the
commonName followed by the alternate names, deduplicated preserving first-seen
order; in particular it starts with the commonName and has no duplicates. -/
theorem c2_dns_names (cn : String) (dc : Option String) (alts : List String)
    (country state locality org : String) (ou : Option String) :
    (createCSRTemplate cn dc alts country state locality org ou).DNSNames
        = firstSeenDedup (cn :: alts) ∧
    (createCSRTemplate cn dc alts country state locality org ou).DNSNames.head? = some cn ∧
    (createCSRTemplate cn dc alts country state locality org ou).DNSNames.Nodup := by
  have h : (createCSRTemplate cn dc alts country state locality org ou).DNSNames
      = buildDNSNames cn alts := rfl
  rw [h, buildDNSNames_eq]
  refine ⟨rfl, ?_, nodup_firstSeenDedup _⟩
  rw [firstSeenDedup]
  rfl

/-- C3: the certificate issued by signCSRToPKCS7 has notBefore equal to the
current time at signing and notAfter equal to notBefore plus exactly the
requested number of validity days (time modelled at civil day + second-of-day
granularity; the hypothesis states that the current time's civil decomposition
recomposes to itself, which holds of every Go time). -/
theorem c3_validity_window (env : Env) (csr : CertificateRequest) (serial key : Nat)
    (vd : Int) (h : goDateTriple (dateOf env.now) = env.now.absDay) :
    (issuedOf env csr serial key vd).NotBefore = env.now ∧
    (issuedOf env csr serial key vd).NotAfter = plusDays env.now vd := by
  refine ⟨rfl, ?_⟩
  show AddDate env.now 0 0 vd = plusDays env.now vd
  exact addDate_days env.now vd h

/-- C3 witness at the concrete date 2026-10-11. -/
theorem c3_validity_window_witness :
    (issuedOf envOk csr0 5 9 365).NotBefore = envOk.now ∧
    (issuedOf envOk csr0 5 9 365).NotAfter = plusDays envOk.now 365 :=
  c3_validity_window envOk csr0 5 9 365 (by decide)

/-- C4: when the PEM decode fails the function returns the decode-failure
error; at every failing step it returns the first error encountered, and every
error outcome comes with the empty result string. -/
theorem c4_error_handling (env : Env) (p : String) (key : Nat) (vd : Int) :
    (env.pemDecode p = none →
      signCSRToPKCS7 env p key vd = ("", some "failed to decode CSR PEM")) ∧
    (∀ block e, env.pemDecode p = some block →
      env.parseCertificateRequest block.Bytes = .error e →
      signCSRToPKCS7 env p key vd = ("", some ("failed to parse CSR: " ++ e))) ∧
    (∀ block csr e, env.pemDecode p = some block →
      env.parseCertificateRequest block.Bytes = .ok csr →
      env.randInt = .error e →
      signCSRToPKCS7 env p key vd = ("", some ("failed to generate serial number: " ++ e))) ∧
    (∀ block csr serial e, env.pemDecode p = some block →
      env.parseCertificateRequest block.Bytes = .ok csr →
      env.randInt = .ok serial →
      env.createCertificateDER (issuedOf env csr serial key vd) = .error e →
      signCSRToPKCS7 env p key vd = ("", some ("failed to create certificate: " ++ e))) ∧
    (∀ block csr serial bs e, env.pemDecode p = some block →
      env.parseCertificateRequest block.Bytes = .ok csr →
      env.randInt = .ok serial →
      env.createCertificateDER (issuedOf env csr serial key vd) = .ok bs →
      env.parseCertificate bs = .error e →
      signCSRToPKCS7 env p key vd = ("", some ("failed to parse certificate: " ++ e))) ∧
    (∀ e, (signCSRToPKCS7 env p key vd).2 = some e →
      (signCSRToPKCS7 env p key vd).1 = "") := by
  refine ⟨?_, ?_, ?_, ?_, ?_, ?_⟩
  · intro h
    simp [signCSRToPKCS7, h]
  · intro block e hb hp2
    simp [signCSRToPKCS7, hb, hp2]
  · intro block csr e hb hcsr hr
    simp [signCSRToPKCS7, hb, hcsr, hr]
  · intro block csr serial e hb hcsr hr hc
    simp [signCSRToPKCS7, hb, hcsr, hr, hc]
  · intro block csr serial bs e hb hcsr hr hc hp2
    simp [signCSRToPKCS7, hb, hcsr, hr, hc, hp2]
  · intro e h
    rcases h1 : env.pemDecode p with _ | block
    · simp [signCSRToPKCS7, h1]
    · rcases h2 : env.parseCertificateRequest block.Bytes with e2 | csr
      · simp [signCSRToPKCS7, h1, h2]
      · rcases h3 : env.randInt with e3 | serial
        · simp [signCSRToPKCS7, h1, h2, h3]
        · rcases h4 : env.createCertificateDER (issuedOf env csr serial key vd) with e4 | bs
          · simp [signCSRToPKCS7, h1, h2, h3, h4]
          · rcases h5 : env.parseCertificate bs with e5 | u
            · simp [signCSRToPKCS7, h1, h2, h3, h4, h5]
            · simp [signCSRToPKCS7, h1, h2, h3, h4, h5] at h

/-- C4 witness: a failing PEM decode (the constant-none decode, as Go's
pem.Decode on the empty string) yields the decode error and empty output. -/
theorem c4_error_handling_witness :
    signCSRToPKCS7 envPemFail "" 0 0 = ("", some "failed to decode CSR PEM") :=
  (c4_error_handling envPemFail "" 0 0).1 rfl

/-- C5: rand.Int at max = 2^128 consumes 16 bytes, never rejects, and returns
their big-endian value, which is always below 2^128; moreover every value
below 2^128 has exactly one 16-byte big-endian representation, so uniformly
random bytes yield a uniformly distributed serial number. -/
theorem c5_serial_number (stream : Nat → Nat) (fuel : Nat)
    (hb : ∀ i, stream i < 256) :
    (goRandInt stream (2 ^ 128) (fuel + 1)
        = some (bytesToNatBE (readBytes stream 0 16)) ∧
      bytesToNatBE (readBytes stream 0 16) < 2 ^ 128) ∧
    (∀ v, v < 2 ^ 128 → ∃! bs : List Nat,
      bs.length = 16 ∧ (∀ x ∈ bs, x < 256) ∧ bytesToNatBE bs = v) := by
  have hpow : (256 : Nat) ^ 16 = 2 ^ 128 := by norm_num
  have hlt : bytesToNatBE (readBytes stream 0 16) < 2 ^ 128 := by
    rw [← hpow, ← readBytes_length stream 0 16]
    exact bytesToNatBE_lt _ (readBytes_lt stream hb 0 16)
  constructor
  · constructor
    · have hbl : bitLen (2 ^ 128 - 1) = 128 := by decide
      unfold goRandInt
      rw [hbl]
      rw [if_neg (by norm_num : ¬(128 : Nat) = 0)]
      show goRandIntLoop stream (2 ^ 128) 16 8 0 (fuel + 1)
        = some (bytesToNatBE (readBytes stream 0 16))
      rw [goRandIntLoop]
      have hcons : readBytes stream 0 16 = stream 0 :: readBytes stream 1 15 := rfl
      rw [hcons]
      dsimp only
      have hm : stream 0 % 2 ^ 8 = stream 0 := Nat.mod_eq_of_lt (by simpa using hb 0)
      rw [hm, ← hcons, if_pos hlt]
    · exact hlt
  · intro v hv
    have hv' : v < 256 ^ 16 := by rw [hpow]; exact hv
    refine ⟨natToBytesBE 16 v,
      ⟨natToBytesBE_length 16 v, natToBytesBE_lt 16 v, ?_⟩, ?_⟩
    · rw [natToBytesBE_value, Nat.mod_eq_of_lt hv']
    · rintro y ⟨hy1, hy2, hy3⟩
      apply bytesToNatBE_inj y (natToBytesBE 16 v)
        (by rw [hy1, natToBytesBE_length]) hy2 (natToBytesBE_lt 16 v)
      rw [hy3, natToBytesBE_value, Nat.mod_eq_of_lt hv']

/-- C5 witness at the all-zero stream. -/
theorem c5_serial_number_witness :
    (goRandInt (fun _ => 0) (2 ^ 128) 1
        = some (bytesToNatBE (readBytes (fun _ => 0) 0 16)) ∧
      bytesToNatBE (readBytes (fun _ => 0) 0 16) < 2 ^ 128) ∧
    (∀ v, v < 2 ^ 128 → ∃! bs : List Nat,
      bs.length = 16 ∧ (∀ x ∈ bs, x < 256) ∧ bytesToNatBE bs = v) :=
  c5_serial_number (fun _ => 0) 0 (fun _ => Nat.zero_lt_succ 255)

/-- C6: the URI list of the certificate template built by signCSRToPKCS7
contains exactly those DNS-name entries of the CSR that parse as absolute URIs
(parse without error with a non-empty scheme), in order, and no others. -/
theorem c6_uris (csr : CertificateRequest) (serial : Nat) (t : GoTime) (vd : Int)
    (up : String → Option URL) :
    (mkTemplate csr serial t vd up).URIs
        = csr.DNSNames.filterMap (fun name =>
            match up name with
            | some u => if u.Scheme ≠ "" then some u else none
            | none => none) ∧
    ∀ u : URL, u ∈ (mkTemplate csr serial t vd up).URIs ↔
      ∃ name, name ∈ csr.DNSNames ∧ up name = some u ∧ u.Scheme ≠ "" := by
  have hfm : (mkTemplate csr serial t vd up).URIs
      = csr.DNSNames.filterMap (fun name =>
          match up name with
          | some u => if u.Scheme ≠ "" then some u else none
          | none => none) := by
    rw [show (mkTemplate csr serial t vd up).URIs = uriFold up csr.DNSNames from rfl]
    unfold uriFold
    simpa using uriFold_general up csr.DNSNames []
  refine ⟨hfm, fun u => ?_⟩
  rw [hfm, List.mem_filterMap]
  constructor
  · rintro ⟨name, hmem, hf⟩
    rcases h : up name with _ | v
    · rw [h] at hf
      simp at hf
    · rw [h] at hf
      dsimp only at hf
      by_cases hs : v.Scheme = ""
      · rw [if_neg (fun hne => hne hs)] at hf
        simp at hf
      · rw [if_pos hs] at hf
        cases hf
        exact ⟨name, hmem, h, hs⟩
  · rintro ⟨name, hmem, hup, hs⟩
    refine ⟨name, hmem, ?_⟩
    rw [hup]
    dsimp only
    rw [if_pos hs]

/-- C7: every certificate issued by a successful signCSRToPKCS7 run is
self-signed: the parent passed to x509.CreateCertificate is the template
itself and the signature key is the supplied private key, so issuer equals
subject. -/
theorem c7_self_signed (env : Env) (p : String) (key : Nat) (vd : Int)
    (tr : SignTrace) (h : signTrace env p key vd = .ok tr) :
    tr.issued.Issuer = tr.issued.Subject ∧
    tr.issued = x509CreateCertificate tr.template tr.template tr.csr.PublicKey key := by
  unfold signTrace at h
  split at h
  · exact Except.noConfusion h
  split at h
  · exact Except.noConfusion h
  split at h
  · exact Except.noConfusion h
  split at h
  · exact Except.noConfusion h
  split at h
  · exact Except.noConfusion h
  injection h with h
  subst h
  exact ⟨rfl, rfl⟩

/-- C7 witness: the envOk run. -/
theorem c7_self_signed_witness :
    tr0.issued.Issuer = tr0.issued.Subject ∧
    tr0.issued = x509CreateCertificate tr0.template tr0.template tr0.csr.PublicKey 9 :=
  c7_self_signed envOk "p" 9 7 tr0 rfl

/-- C8: the hash-algorithm command argument is never consulted: the pipeline's
output is the same for every argument list, and the CSR template's signature
algorithm is fixed to ECDSA-with-SHA-256. -/
theorem c8_hash_arg_unused :
    (∀ (env : Env) (args args' : List String),
      CertificateGeneration env args = CertificateGeneration env args') ∧
    (∀ (cn : String) (dc : Option String) (alts : List String)
      (country state locality org : String) (ou : Option String),
      (createCSRTemplate cn dc alts country state locality org ou).SignatureAlgorithm
        = SignatureAlgorithm.ECDSAWithSHA256) :=
  ⟨fun _ _ _ => rfl, fun _ _ _ _ _ _ _ _ => rfl⟩

/-- C9: no cryptographic consistency check between CSR and signing key: for
every parseable CSR and every signing key — with no hypothesis relating the
CSR's public key to that key — the run issues a certificate whose public key
is the CSR's and whose signature is made with the supplied key. -/
theorem c9_no_consistency_check (env : Env) (p : String) (key : Nat) (vd : Int)
    (block : PemBlock) (csr : CertificateRequest) (serial : Nat)
    (h1 : env.pemDecode p = some block)
    (h2 : env.parseCertificateRequest block.Bytes = .ok csr)
    (h3 : env.randInt = .ok serial)
    (h4 : ∀ c, ∃ bs, env.createCertificateDER c = .ok bs)
    (h5 : ∀ bs, ∃ u, env.parseCertificate bs = .ok u) :
    ∃ tr, signTrace env p key vd = .ok tr ∧
      tr.issued.PublicKey = csr.PublicKey ∧ tr.issued.SignedWith = key := by
  obtain ⟨bs, hbs⟩ := h4 (issuedOf env csr serial key vd)
  obtain ⟨u, hu⟩ := h5 bs
  refine ⟨{ csr := csr
            serialNumber := serial
            template := mkTemplate csr serial env.now vd env.urlParse
            issued := issuedOf env csr serial key vd
            certBytes := bs
            output := base64Encode (buildPKCS7 bs) }, ?_, rfl, rfl⟩
  simp [signTrace, h1, h2, h3, hbs, hu]

/-- C9 witness: in envOk the CSR's public key (42) does not correspond to the
signing key (9), yet the run succeeds and issues for 42 signed with 9. -/
theorem c9_no_consistency_check_witness :
    ∃ tr, signTrace envOk "p" 9 7 = .ok tr ∧
      tr.issued.PublicKey = csr0.PublicKey ∧ tr.issued.SignedWith = 9 :=
  c9_no_consistency_check envOk "p" 9 7 blk0 csr0 5 rfl rfl rfl
    (fun _ => ⟨[48, 3, 2, 1, 0], rfl⟩) (fun _ => ⟨(), rfl⟩)

/-- C10: the validity period is not validated: signCSRToPKCS7 succeeds for
every integer validityDays (zero and negative included), and when
validityDays ≤ 0 the certificate's notAfter is on or before its notBefore. -/
theorem c10_validity_unchecked (env : Env) (p : String) (key : Nat) (vd : Int)
    (block : PemBlock) (csr : CertificateRequest) (serial : Nat)
    (h1 : env.pemDecode p = some block)
    (h2 : env.parseCertificateRequest block.Bytes = .ok csr)
    (h3 : env.randInt = .ok serial)
    (h4 : ∀ c, ∃ bs, env.createCertificateDER c = .ok bs)
    (h5 : ∀ bs, ∃ u, env.parseCertificate bs = .ok u) :
    (signCSRToPKCS7 env p key vd).2 = none ∧
    (goDateTriple (dateOf env.now) = env.now.absDay → vd ≤ 0 →
      (issuedOf env csr serial key vd).NotAfter.absDay
          ≤ (issuedOf env csr serial key vd).NotBefore.absDay ∧
      (issuedOf env csr serial key vd).NotAfter.sod
          = (issuedOf env csr serial key vd).NotBefore.sod) := by
  constructor
  · obtain ⟨bs, hbs⟩ := h4 (issuedOf env csr serial key vd)
    obtain ⟨u, hu⟩ := h5 bs
    simp [signCSRToPKCS7, h1, h2, h3, hbs, hu]
  · intro hrt hvd
    have hNA : (issuedOf env csr serial key vd).NotAfter = plusDays env.now vd := by
      show AddDate env.now 0 0 vd = plusDays env.now vd
      exact addDate_days env.now vd hrt
    have hNB : (issuedOf env csr serial key vd).NotBefore = env.now := rfl
    rw [hNA, hNB]
    exact ⟨by show env.now.absDay + vd ≤ env.now.absDay; omega, rfl⟩

/-- C10 witness with validityDays = -3. -/
theorem c10_validity_unchecked_witness :
    (signCSRToPKCS7 envOk "p" 9 (-3)).2 = none ∧
    (issuedOf envOk csr0 5 9 (-3)).NotAfter.absDay
        ≤ (issuedOf envOk csr0 5 9 (-3)).NotBefore.absDay ∧
    (issuedOf envOk csr0 5 9 (-3)).NotAfter.sod
        = (issuedOf envOk csr0 5 9 (-3)).NotBefore.sod := by
  have h := c10_validity_unchecked envOk "p" 9 (-3) blk0 csr0 5 rfl rfl rfl
    (fun _ => ⟨[48, 3, 2, 1, 0], rfl⟩) (fun _ => ⟨(), rfl⟩)
  exact ⟨h.1, h.2 (by decide) (by decide)⟩
